import Mathlib

/-!
Verification of the loan/mortgage package: a shallow embedding over ℚ of
`loan_calculations.py` and `amorization.py`, followed by theorems settling
the specification claims.

Modelling conventions:
* Python floats are modelled as exact rationals (ℚ); equalities that the
  spec states "within floating tolerance" become exact equalities or
  explicit rounding bounds over ℚ.
* Python `round` (banker's rounding, round-half-to-even) is `pyRound`;
  `round(x, 2)` is `round2`.
* Python `/`, which raises `ZeroDivisionError` on a zero denominator, is
  `pyDiv`, returning `Except PyError ℚ`.
* Python's dynamic typing at the validation boundary is modelled by
  `PyVal` (an int, a float, or a non-numeric value); `TypeError` and
  `ValueError` are the constructors of `PyError`.
-/

/-- Errors the Python code can raise: `TypeError`, `ValueError`,
`ZeroDivisionError`. The spec's `InvalidInput` covers the first two. -/
inductive PyError where
  | typeError
  | valueError
  | zeroDivisionError
deriving DecidableEq, Repr

/-- A Python value at the validation boundary: an `int`, a `float`
(its exact rational value), or something non-numeric. -/
inductive PyVal where
  | intVal (k : ℤ)
  | floatVal (q : ℚ)
  | nonNum
deriving DecidableEq, Repr

/-- `isinstance(value, (int, float))`. -/
def PyVal.isNumber : PyVal → Bool
  | .intVal _ => true
  | .floatVal _ => true
  | .nonNum => false

/-- The rational value carried by a numeric `PyVal` (0 for non-numeric,
which validation rejects before the value is ever used). -/
def PyVal.toQ : PyVal → ℚ
  | .intVal k => (k : ℚ)
  | .floatVal q => q
  | .nonNum => 0

/-- Python 3 `round(x)`: round half to even (banker's rounding). -/
def pyRound (x : ℚ) : ℤ :=
  if x - ⌊x⌋ = 1 / 2 then (if ⌊x⌋ % 2 = 0 then ⌊x⌋ else ⌊x⌋ + 1) else round x

/-- Python `round(x, 2)`: round to two decimal places (half to even). -/
def round2 (x : ℚ) : ℚ := (pyRound (x * 100) : ℚ) / 100

/-- Python true division: raises `ZeroDivisionError` on a zero denominator. -/
def pyDiv (a b : ℚ) : Except PyError ℚ :=
  if b = 0 then .error .zeroDivisionError else .ok (a / b)

namespace LoanCalculations

/-- `validate_loan_inputs` from `loan_calculations.py`: `TypeError` for a
non-numeric argument, `ValueError` for `principal <= 0`,
`annual_interest_rate < 0` or `years <= 0`. -/
def validate_loan_inputs (principal annual_interest_rate years : PyVal) :
    Except PyError Unit :=
  if ¬(principal.isNumber ∧ annual_interest_rate.isNumber ∧ years.isNumber) then
    .error .typeError
  else if principal.toQ ≤ 0 then .error .valueError
  else if annual_interest_rate.toQ < 0 then .error .valueError
  else if years.toQ ≤ 0 then .error .valueError
  else .ok ()

/-- `calculate_monthly_payment` from `loan_calculations.py` (numeric
arguments; the non-numeric case is settled at `validate_loan_inputs`). -/
def calculate_monthly_payment (principal annual_interest_rate years : ℚ) :
    Except PyError ℚ :=
  match validate_loan_inputs (.floatVal principal) (.floatVal annual_interest_rate)
      (.floatVal years) with
  | .error e => .error e
  | .ok _ =>
    let months : ℤ := pyRound (years * 12)
    if months ≤ 0 then .error .valueError
    else
      let monthly_rate := annual_interest_rate / 100 / 12
      if monthly_rate = 0 then pyDiv principal (months : ℚ)
      else pyDiv (principal * monthly_rate) (1 - (1 + monthly_rate) ^ (-months))

/-- `calculate_remaining_balance` from `loan_calculations.py`.
`payments_made` keeps its Python dynamic type: only an `int` passes the
`isinstance` check. -/
def calculate_remaining_balance (principal annual_interest_rate years : ℚ)
    (payments_made : PyVal) : Except PyError ℚ :=
  match validate_loan_inputs (.floatVal principal) (.floatVal annual_interest_rate)
      (.floatVal years) with
  | .error e => .error e
  | .ok _ =>
    match payments_made with
    | .intVal k =>
      if k < 0 then .error .valueError
      else
        let months : ℤ := pyRound (years * 12)
        if months ≤ 0 then .error .valueError
        else if months ≤ k then .ok 0
        else
          match calculate_monthly_payment principal annual_interest_rate years with
          | .error e => .error e
          | .ok monthly_payment =>
            let monthly_rate := annual_interest_rate / 100 / 12
            if monthly_rate = 0 then
              .ok (max (principal - monthly_payment * (k : ℚ)) 0)
            else
              let factor := (1 + monthly_rate) ^ k
              match pyDiv (monthly_payment * (factor - 1)) monthly_rate with
              | .error e => .error e
              | .ok t => .ok (max (principal * factor - t) 0)
    | _ => .error .typeError

/-- `calculate_total_interest` from `loan_calculations.py`. -/
def calculate_total_interest (principal annual_interest_rate years : ℚ) :
    Except PyError ℚ :=
  match validate_loan_inputs (.floatVal principal) (.floatVal annual_interest_rate)
      (.floatVal years) with
  | .error e => .error e
  | .ok _ =>
    let months : ℤ := pyRound (years * 12)
    match calculate_monthly_payment principal annual_interest_rate years with
    | .error e => .error e
    | .ok monthly_payment => .ok (monthly_payment * (months : ℚ) - principal)

/-- `calculate_total_cost` from `loan_calculations.py`. -/
def calculate_total_cost (principal annual_interest_rate years : ℚ) :
    Except PyError ℚ :=
  match validate_loan_inputs (.floatVal principal) (.floatVal annual_interest_rate)
      (.floatVal years) with
  | .error e => .error e
  | .ok _ =>
    match calculate_total_interest principal annual_interest_rate years with
    | .error e => .error e
    | .ok total_interest => .ok (principal + total_interest)

end LoanCalculations

namespace Amortization

/-- `monthly_payment` from `amorization.py` (rate is a decimal fraction,
e.g. 0.05 for 5%; `n` is the number of months). Divisions can raise
`ZeroDivisionError`, exactly as in Python. -/
def monthly_payment (P annual_rate : ℚ) (n : ℕ) : Except PyError ℚ :=
  let r := annual_rate / 12
  if r = 0 then pyDiv P (n : ℚ)
  else pyDiv (P * (r * (1 + r) ^ n)) ((1 + r) ^ n - 1)

/-- `interest_for_month` from `amorization.py`. -/
def interest_for_month (balance annual_rate : ℚ) : ℚ :=
  balance * (annual_rate / 12)

/-- `principal_for_month` from `amorization.py`. -/
def principal_for_month (payment interest : ℚ) : ℚ := payment - interest

/-- `remaining_balance` from `amorization.py` (the per-period helper, not
the closed-form query in `loan_calculations.py`). -/
def remaining_balance (balance principal_paid : ℚ) : ℚ :=
  balance - principal_paid

/-- One row of the amortization DataFrame: columns Month, Payment,
Interest, Principal, Balance. -/
structure ScheduleEntry where
  month : ℕ
  payment : ℚ
  interest : ℚ
  principal : ℚ
  balance : ℚ
deriving DecidableEq, Repr

/-- The loop body of `generate_amortization_schedule`: starting from the
given unrounded `balance` at month number `month`, produce the remaining
rows. Emitted fields are rounded; the recurrence advances on the
unrounded balance. -/
def scheduleRows (payment annual_rate balance : ℚ) (month : ℕ) :
    ℕ → List ScheduleEntry
  | 0 => []
  | remaining + 1 =>
    let interest := interest_for_month balance annual_rate
    let principal_paid := principal_for_month payment interest
    let new_balance := remaining_balance balance principal_paid
    { month := month, payment := round2 payment, interest := round2 interest,
      principal := round2 principal_paid, balance := round2 (max new_balance 0) } ::
      scheduleRows payment annual_rate new_balance (month + 1) remaining

/-- `generate_amortization_schedule` from `amorization.py`. -/
def generate_amortization_schedule (principal annual_rate : ℚ) (months : ℕ) :
    Except PyError (List ScheduleEntry) :=
  match monthly_payment principal annual_rate months with
  | .error e => .error e
  | .ok payment => .ok (scheduleRows payment annual_rate principal 1 months)

/-- The unrounded balance after `k` iterations of the per-period
recurrence (interest = balance × rate/12; principal = payment − interest;
new balance = balance − principal), starting from `b`. -/
def iterBalance (payment annual_rate b : ℚ) : ℕ → ℚ
  | 0 => b
  | k + 1 =>
    let bk := iterBalance payment annual_rate b k
    remaining_balance bk (principal_for_month payment (interest_for_month bk annual_rate))

end Amortization

/-! ## Basic lemmas about the rounding and validation primitives -/

lemma abs_pyRound_sub (x : ℚ) : |(pyRound x : ℚ) - x| ≤ 1 / 2 := by
  unfold pyRound
  split_ifs with h h2
  · have hx : (⌊x⌋ : ℚ) - x = -(1 / 2) := by linarith
    rw [hx, abs_neg, abs_of_nonneg (by norm_num : (0 : ℚ) ≤ 1 / 2)]
  · have hx : ((⌊x⌋ + 1 : ℤ) : ℚ) - x = 1 / 2 := by push_cast; linarith
    rw [hx, abs_of_nonneg (by norm_num : (0 : ℚ) ≤ 1 / 2)]
  · rw [abs_sub_comm]
    exact abs_sub_round x

lemma abs_round2_sub (x : ℚ) : |round2 x - x| ≤ 1 / 200 := by
  unfold round2
  have h := abs_pyRound_sub (x * 100)
  have hrw : (pyRound (x * 100) : ℚ) / 100 - x = ((pyRound (x * 100) : ℚ) - x * 100) / 100 := by
    ring
  rw [hrw, abs_div, abs_of_pos (show (0 : ℚ) < 100 by norm_num)]
  linarith

lemma round2_zero : round2 0 = 0 := by
  simp [round2, pyRound]

namespace LoanCalculations

lemma validate_nums_ok (p r y : ℚ) (hp : 0 < p) (hr : 0 ≤ r) (hy : 0 < y) :
    validate_loan_inputs (.floatVal p) (.floatVal r) (.floatVal y) = .ok () := by
  simp [validate_loan_inputs, PyVal.isNumber, PyVal.toQ, not_le.mpr hp, not_lt.mpr hr,
    not_le.mpr hy]

/-- The annuity denominator `1 - (1+mr)^(-m)` is positive for a positive
monthly rate and at least one month. -/
lemma one_sub_zpow_neg_pos (mr : ℚ) (hmr : 0 < mr) (m : ℤ) (hm : 1 ≤ m) :
    0 < 1 - (1 + mr) ^ (-m) := by
  have h1 : (1 : ℚ) < 1 + mr := by linarith
  have h2 : 1 < (1 + mr) ^ m := by
    have hmn : m = (m.toNat : ℤ) := (Int.toNat_of_nonneg (by omega)).symm
    rw [hmn, zpow_natCast]
    exact one_lt_pow₀ h1 (by omega)
  have h3 : (0 : ℚ) < (1 + mr) ^ m := lt_trans one_pos h2
  rw [zpow_neg]
  have h4 : ((1 + mr) ^ m)⁻¹ < 1 := by
    rw [inv_lt_one_iff₀]
    right
    exact h2
  linarith

lemma calc_mp_zero (p r y : ℚ) (hp : 0 < p) (hr : 0 ≤ r) (hy : 0 < y)
    (hm : 1 ≤ pyRound (y * 12)) (hmr : r / 100 / 12 = 0) :
    calculate_monthly_payment p r y = .ok (p / (pyRound (y * 12) : ℚ)) := by
  have hm0 : ¬ pyRound (y * 12) ≤ 0 := by omega
  have hne : pyRound (y * 12) ≠ 0 := by omega
  have hcast : ((pyRound (y * 12) : ℤ) : ℚ) ≠ 0 := Int.cast_ne_zero.mpr hne
  simp only [calculate_monthly_payment, validate_nums_ok p r y hp hr hy, hm0, if_false,
    hmr, if_true, pyDiv, hcast, ite_false, ite_true]

lemma calc_mp_pos (p r y : ℚ) (hp : 0 < p) (hr : 0 ≤ r) (hy : 0 < y)
    (hm : 1 ≤ pyRound (y * 12)) (hmr : r / 100 / 12 ≠ 0) :
    calculate_monthly_payment p r y =
      .ok (p * (r / 100 / 12) / (1 - (1 + r / 100 / 12) ^ (-(pyRound (y * 12))))) := by
  have hmrpos : 0 < r / 100 / 12 := by
    rcases lt_or_eq_of_le (show 0 ≤ r / 100 / 12 by positivity) with h | h
    · exact h
    · exact absurd h.symm hmr
  have hden : 0 < 1 - (1 + r / 100 / 12) ^ (-(pyRound (y * 12))) :=
    one_sub_zpow_neg_pos _ hmrpos _ hm
  have hm0 : ¬ pyRound (y * 12) ≤ 0 := by omega
  simp only [calculate_monthly_payment, validate_nums_ok p r y hp hr hy, hm0, if_false,
    hmr, ite_false, pyDiv, hden.ne', ite_true]

end LoanCalculations

/-- C1: for every valid input (`principal > 0`, `annualRatePercent ≥ 0`,
`termYears > 0`, derived `months = round(termYears × 12) ≥ 1`),
`calculate_monthly_payment` returns `principal / months` when the monthly
rate `annualRatePercent/100/12` is 0 and otherwise
`principal × monthlyRate / (1 − (1+monthlyRate)^(−months))`. -/
theorem calculate_monthly_payment_spec (p r y : ℚ) (hp : 0 < p) (hr : 0 ≤ r)
    (hy : 0 < y) (hm : 1 ≤ pyRound (y * 12)) :
    LoanCalculations.calculate_monthly_payment p r y =
      .ok (if r / 100 / 12 = 0 then p / (pyRound (y * 12) : ℚ)
        else p * (r / 100 / 12) / (1 - (1 + r / 100 / 12) ^ (-(pyRound (y * 12))))) := by
  by_cases hmr : r / 100 / 12 = 0
  · rw [if_pos hmr]
    exact LoanCalculations.calc_mp_zero p r y hp hr hy hm hmr
  · rw [if_neg hmr]
    exact LoanCalculations.calc_mp_pos p r y hp hr hy hm hmr

/-- Witness for C1 at principal 1200, rate 120%, term 1/6 year (2 months). -/
theorem calculate_monthly_payment_spec_witness :
    LoanCalculations.calculate_monthly_payment 1200 120 (1 / 6) =
      .ok (if (120 : ℚ) / 100 / 12 = 0 then 1200 / (pyRound ((1 / 6 : ℚ) * 12) : ℚ)
        else 1200 * ((120 : ℚ) / 100 / 12) /
          (1 - (1 + (120 : ℚ) / 100 / 12) ^ (-(pyRound ((1 / 6 : ℚ) * 12))))) :=
  calculate_monthly_payment_spec 1200 120 (1 / 6) (by norm_num) (by norm_num) (by norm_num)
    (by norm_num [pyRound, round_eq, Int.floor_eq_iff])

/-- C10: the schedule generator performs no input validation; with
`months = 0` the internal `monthly_payment` divides by zero in both
branches, so `generate_amortization_schedule` fails with
`ZeroDivisionError` (not a validation error) for every principal and rate. -/
theorem generate_schedule_zero_months_zero_division (p r : ℚ) :
    Amortization.generate_amortization_schedule p r 0 = .error .zeroDivisionError := by
  unfold Amortization.generate_amortization_schedule Amortization.monthly_payment
  by_cases h : r / 12 = 0
  · simp [h, pyDiv]
  · simp [h, pyDiv]

namespace Amortization

lemma iterBalance_zero (M rate b : ℚ) : iterBalance M rate b 0 = b := rfl

lemma iterBalance_succ (M rate b : ℚ) (k : ℕ) :
    iterBalance M rate b (k + 1) =
      remaining_balance (iterBalance M rate b k)
        (principal_for_month M (interest_for_month (iterBalance M rate b k) rate)) :=
  rfl

/-- Advancing the start state by one step shifts the iteration count. -/
lemma iterBalance_shift (M rate b : ℚ) (i : ℕ) :
    iterBalance M rate
        (remaining_balance b (principal_for_month M (interest_for_month b rate))) i =
      iterBalance M rate b (i + 1) := by
  induction i with
  | zero => rfl
  | succ i ih =>
    rw [iterBalance_succ, ih]
    exact (iterBalance_succ M rate b (i + 1)).symm

/-- The generator's loop, characterized row by row: row `i` (0-based) is
built from the unrounded iterated balances, with every emitted field
rounded to two decimals and the emitted balance clamped at zero. -/
lemma scheduleRows_eq_map (M rate : ℚ) : ∀ (n : ℕ) (b : ℚ) (m : ℕ),
    scheduleRows M rate b m n = (List.range n).map (fun i =>
      { month := m + i,
        payment := round2 M,
        interest := round2 (interest_for_month (iterBalance M rate b i) rate),
        principal :=
          round2 (principal_for_month M (interest_for_month (iterBalance M rate b i) rate)),
        balance := round2 (max (iterBalance M rate b (i + 1)) 0) }) := by
  intro n
  induction n with
  | zero => intro b m; rfl
  | succ n ih =>
    intro b m
    rw [List.range_succ_eq_map]
    simp only [scheduleRows, List.map_cons, List.map_map]
    congr 1
    rw [ih]
    apply List.map_congr_left
    intro i _
    simp only [Function.comp_apply, Nat.succ_eq_add_one]
    rw [iterBalance_shift, iterBalance_shift, show m + 1 + i = m + (i + 1) from by omega]

/-- Closed form of the per-period recurrence for a nonzero monthly rate
`rate/12`, for an arbitrary fixed payment `M`. -/
lemma iterBalance_closed (M rate b : ℚ) (hr : rate / 12 ≠ 0) (k : ℕ) :
    iterBalance M rate b k =
      b * (1 + rate / 12) ^ k - M * ((1 + rate / 12) ^ k - 1) / (rate / 12) := by
  induction k with
  | zero => simp [iterBalance_zero]
  | succ k ih =>
    rw [iterBalance_succ, ih]
    simp only [remaining_balance, principal_for_month, interest_for_month, pow_succ]
    generalize rate / 12 = r at hr ⊢
    field_simp
    ring

/-- With a zero annual rate the recurrence reduces the balance linearly. -/
lemma iterBalance_zero_rate (M b : ℚ) (k : ℕ) :
    iterBalance M 0 b k = b - k * M := by
  induction k with
  | zero => simp [iterBalance_zero]
  | succ k ih =>
    rw [iterBalance_succ, ih]
    simp only [remaining_balance, principal_for_month, interest_for_month]
    push_cast
    ring

/-- With the annuity payment of `amorization.py`, the iterated balance has
the solved form `P × (A^n − A^k) / (A^n − 1)` where `A = 1 + rate/12`. -/
lemma iterBalance_annuity (P rate : ℚ) (n : ℕ) (hr : rate / 12 ≠ 0)
    (hA : (1 + rate / 12) ^ n ≠ 1) (k : ℕ) :
    iterBalance (P * (rate / 12 * (1 + rate / 12) ^ n) / ((1 + rate / 12) ^ n - 1))
        rate P k =
      P * ((1 + rate / 12) ^ n - (1 + rate / 12) ^ k) / ((1 + rate / 12) ^ n - 1) := by
  rw [iterBalance_closed _ _ _ hr]
  have h1 : (1 + rate / 12) ^ n - 1 ≠ 0 := sub_ne_zero.mpr hA
  generalize rate / 12 = r at hr hA h1 ⊢
  field_simp
  ring

/-- The annuity payment retires the loan exactly at period `n`. -/
lemma iterBalance_annuity_final (P rate : ℚ) (n : ℕ) (hr : rate / 12 ≠ 0)
    (hA : (1 + rate / 12) ^ n ≠ 1) :
    iterBalance (P * (rate / 12 * (1 + rate / 12) ^ n) / ((1 + rate / 12) ^ n - 1))
        rate P n = 0 := by
  rw [iterBalance_annuity P rate n hr hA n]
  simp

/-- Before the final period the iterated balance never goes negative
(positive rate, `k ≤ n`). -/
lemma iterBalance_annuity_nonneg (P rate : ℚ) (n : ℕ) (hP : 0 ≤ P)
    (hr : 0 < rate / 12) (hn : n ≠ 0) (k : ℕ) (hk : k ≤ n) :
    0 ≤ iterBalance (P * (rate / 12 * (1 + rate / 12) ^ n) / ((1 + rate / 12) ^ n - 1))
        rate P k := by
  have h1 : (1 : ℚ) < 1 + rate / 12 := by linarith
  have hA : 1 < (1 + rate / 12) ^ n := one_lt_pow₀ h1 hn
  rw [iterBalance_annuity P rate n hr.ne' (ne_of_gt hA) k]
  apply div_nonneg
  · apply mul_nonneg hP
    have := pow_le_pow_right₀ (le_of_lt h1) hk
    linarith
  · linarith

/-- Telescoping: the unrounded per-period principal amounts sum to the
drop in the unrounded balance. -/
lemma sum_principal_unrounded (M rate b : ℚ) (n : ℕ) :
    ((List.range n).map (fun i =>
        principal_for_month M (interest_for_month (iterBalance M rate b i) rate))).sum =
      b - iterBalance M rate b n := by
  induction n with
  | zero => simp [iterBalance_zero]
  | succ n ih =>
    rw [List.range_succ, List.map_append, List.sum_append, ih, iterBalance_succ]
    simp only [remaining_balance, principal_for_month, interest_for_month,
      List.map_cons, List.map_nil, List.sum_cons, List.sum_nil]
    ring

/-- Rounding each list element moves the sum by at most half a cent per
element. -/
lemma sum_round2_bound (l : List ℚ) :
    |(l.map round2).sum - l.sum| ≤ l.length * (1 / 200) := by
  induction l with
  | nil => simp
  | cons x xs ih =>
    simp only [List.map_cons, List.sum_cons, List.length_cons]
    have h1 := abs_round2_sub x
    have hsplit : round2 x + (xs.map round2).sum - (x + xs.sum) =
        (round2 x - x) + ((xs.map round2).sum - xs.sum) := by ring
    rw [hsplit]
    calc |(round2 x - x) + ((xs.map round2).sum - xs.sum)| ≤
        |round2 x - x| + |(xs.map round2).sum - xs.sum| := abs_add _ _
      _ ≤ 1 / 200 + xs.length * (1 / 200) := add_le_add h1 ih
      _ = (xs.length + 1) * (1 / 200) := by ring
      _ = ((xs.length + 1 : ℕ) : ℚ) * (1 / 200) := by push_cast; ring

/-- `monthly_payment` in the zero-rate branch. -/
lemma amort_mp_zero (P : ℚ) (n : ℕ) (hn : n ≠ 0) :
    monthly_payment P 0 n = .ok (P / n) := by
  simp [monthly_payment, pyDiv, Nat.cast_ne_zero.mpr hn]

/-- `monthly_payment` in the positive-rate branch. -/
lemma amort_mp_pos (P rate : ℚ) (n : ℕ) (hr : 0 < rate / 12) (hn : n ≠ 0) :
    monthly_payment P rate n =
      .ok (P * (rate / 12 * (1 + rate / 12) ^ n) / ((1 + rate / 12) ^ n - 1)) := by
  have hA : 1 < (1 + rate / 12) ^ n := one_lt_pow₀ (by linarith) hn
  simp [monthly_payment, pyDiv, hr.ne', sub_ne_zero.mpr (ne_of_gt hA)]

end Amortization

namespace Amortization

/-- On valid inputs (`P` arbitrary, rate ≥ 0, at least one month) the
payment computation succeeds. -/
lemma amort_mp_exists (P rate : ℚ) (hr : 0 ≤ rate) (n : ℕ) (hn : n ≠ 0) :
    ∃ M, monthly_payment P rate n = .ok M := by
  by_cases h : rate = 0
  · subst h
    exact ⟨_, amort_mp_zero P n hn⟩
  · have hpos : 0 < rate / 12 := by
      have : 0 < rate := lt_of_le_of_ne hr (Ne.symm h)
      positivity
    exact ⟨_, amort_mp_pos P rate n hpos hn⟩

lemma generate_ok (p rate : ℚ) (n : ℕ) (M : ℚ) (h : monthly_payment p rate n = .ok M) :
    generate_amortization_schedule p rate n = .ok (scheduleRows M rate p 1 n) := by
  simp [generate_amortization_schedule, h]

end Amortization

/-- C5: for every valid input the schedule has length exactly `months`,
its period numbers are `1, 2, …, months` in order (entry `i`, 0-based,
has period `i+1`), and the payment field is the same constant in every
entry. -/
theorem schedule_shape (p rate : ℚ) (n : ℕ) (hp : 0 < p) (hr : 0 ≤ rate) (hn : 1 ≤ n) :
    ∃ M entries,
      Amortization.generate_amortization_schedule p rate n = .ok entries ∧
      entries.length = n ∧
      (∀ i e, entries.get? i = some e → e.month = i + 1) ∧
      (∀ e ∈ entries, e.payment = round2 M) := by
  obtain ⟨M, hM⟩ := Amortization.amort_mp_exists p rate hr n (by omega)
  refine ⟨M, _, Amortization.generate_ok p rate n M hM, ?_, ?_, ?_⟩
  · rw [Amortization.scheduleRows_eq_map]
    rw [List.length_map, List.length_range]
  · intro i e he
    rw [Amortization.scheduleRows_eq_map, List.get?_map] at he
    rcases lt_or_le i n with hi | hi
    · rw [List.get?_range hi] at he
      simp only [Option.map_some', Option.some.injEq] at he
      subst he
      show 1 + i = i + 1
      omega
    · rw [List.get?_eq_none.mpr (by rw [List.length_range]; omega)] at he
      simp at he
  · intro e he
    rw [Amortization.scheduleRows_eq_map] at he
    simp only [List.mem_map] at he
    obtain ⟨i, _, rfl⟩ := he
    rfl

/-- Witness for C5 at principal 100, rate 0, 12 months. -/
theorem schedule_shape_witness :
    ∃ M entries,
      Amortization.generate_amortization_schedule 100 0 12 = .ok entries ∧
      entries.length = 12 ∧
      (∀ i e, entries.get? i = some e → e.month = i + 1) ∧
      (∀ e ∈ entries, e.payment = round2 M) :=
  schedule_shape 100 0 12 (by norm_num) (by norm_num) (by norm_num)

/-- C4: every emitted row `i` (0-based; period `k = i+1`) carries
`interest = balance_{k-1} × monthlyRate`, `principal = payment − interest`
and `endingBalance = max(balance_{k-1} − principal, 0)`, each rounded to
two decimals, while the recurrence advances on the unrounded, unclamped
balance (`iterBalance`). -/
theorem schedule_fields (p rate : ℚ) (n : ℕ) (hp : 0 < p) (hr : 0 ≤ rate) (hn : 1 ≤ n) :
    ∃ M entries,
      Amortization.monthly_payment p rate n = .ok M ∧
      Amortization.generate_amortization_schedule p rate n = .ok entries ∧
      ∀ i, i < n →
        entries.get? i = some
          { month := i + 1,
            payment := round2 M,
            interest := round2 (Amortization.iterBalance M rate p i * (rate / 12)),
            principal := round2 (M - Amortization.iterBalance M rate p i * (rate / 12)),
            balance := round2 (max (Amortization.iterBalance M rate p i -
              (M - Amortization.iterBalance M rate p i * (rate / 12))) 0) } ∧
        Amortization.iterBalance M rate p (i + 1) =
          Amortization.iterBalance M rate p i -
            (M - Amortization.iterBalance M rate p i * (rate / 12)) := by
  obtain ⟨M, hM⟩ := Amortization.amort_mp_exists p rate hr n (by omega)
  refine ⟨M, _, hM, Amortization.generate_ok p rate n M hM, ?_⟩
  intro i hi
  constructor
  · rw [Amortization.scheduleRows_eq_map, List.get?_map, List.get?_range hi]
    simp only [Option.map_some']
    have hmonth : 1 + i = i + 1 := by omega
    simp only [Amortization.interest_for_month, Amortization.principal_for_month,
      Amortization.remaining_balance, Amortization.iterBalance_succ, hmonth]
  · rw [Amortization.iterBalance_succ]
    simp only [Amortization.interest_for_month, Amortization.principal_for_month,
      Amortization.remaining_balance]

/-- Witness for C4 at principal 200, rate 0, 6 months. -/
theorem schedule_fields_witness :
    ∃ M entries,
      Amortization.monthly_payment 200 0 6 = .ok M ∧
      Amortization.generate_amortization_schedule 200 0 6 = .ok entries ∧
      ∀ i, i < 6 →
        entries.get? i = some
          { month := i + 1,
            payment := round2 M,
            interest := round2 (Amortization.iterBalance M 0 200 i * ((0 : ℚ) / 12)),
            principal := round2 (M - Amortization.iterBalance M 0 200 i * ((0 : ℚ) / 12)),
            balance := round2 (max (Amortization.iterBalance M 0 200 i -
              (M - Amortization.iterBalance M 0 200 i * ((0 : ℚ) / 12))) 0) } ∧
        Amortization.iterBalance M 0 200 (i + 1) =
          Amortization.iterBalance M 0 200 i -
            (M - Amortization.iterBalance M 0 200 i * ((0 : ℚ) / 12)) :=
  schedule_fields 200 0 6 (by norm_num) (by norm_num) (by norm_num)

namespace Amortization

/-- On valid inputs the actual payment of `amorization.py` retires the
unrounded balance to exactly 0 after `n` periods. -/
lemma amort_final_zero (p rate : ℚ) (n : ℕ) (hr : 0 ≤ rate) (hn : n ≠ 0) :
    ∃ M, monthly_payment p rate n = .ok M ∧ iterBalance M rate p n = 0 := by
  by_cases h : rate = 0
  · subst h
    refine ⟨p / n, amort_mp_zero p n hn, ?_⟩
    rw [iterBalance_zero_rate]
    have hcast : (n : ℚ) ≠ 0 := Nat.cast_ne_zero.mpr hn
    field_simp
  · have hrate : 0 < rate := lt_of_le_of_ne hr (Ne.symm h)
    have hpos : 0 < rate / 12 := by positivity
    have hA : 1 < (1 + rate / 12) ^ n := one_lt_pow₀ (by linarith) hn
    exact ⟨_, amort_mp_pos p rate n hpos hn,
      iterBalance_annuity_final p rate n hpos.ne' (ne_of_gt hA)⟩

end Amortization

/-- C3: for every valid input the final schedule entry's ending balance is
exactly 0, the unrounded per-period principal amounts sum to exactly the
principal, and the emitted (2-decimal-rounded) principal column sums to
the principal within half a cent per entry. -/
theorem schedule_retires_loan (p rate : ℚ) (n : ℕ) (hp : 0 < p) (hr : 0 ≤ rate)
    (hn : 1 ≤ n) :
    ∃ entries,
      Amortization.generate_amortization_schedule p rate n = .ok entries ∧
      entries.length = n ∧
      (∀ e, entries.get? (n - 1) = some e → e.balance = 0) ∧
      |(entries.map Amortization.ScheduleEntry.principal).sum - p| ≤ (n : ℚ) * (1 / 200) := by
  obtain ⟨M, hM, hfin⟩ := Amortization.amort_final_zero p rate n hr (by omega)
  refine ⟨_, Amortization.generate_ok p rate n M hM, ?_, ?_, ?_⟩
  · rw [Amortization.scheduleRows_eq_map, List.length_map, List.length_range]
  · intro e he
    rw [Amortization.scheduleRows_eq_map, List.get?_map,
      List.get?_range (show n - 1 < n by omega)] at he
    simp only [Option.map_some', Option.some.injEq] at he
    subst he
    show round2 (max (Amortization.iterBalance M rate p (n - 1 + 1)) 0) = 0
    rw [show n - 1 + 1 = n from by omega, hfin]
    simp [round2_zero]
  · have hmap : (Amortization.scheduleRows M rate p 1 n).map
        Amortization.ScheduleEntry.principal =
        ((List.range n).map (fun i => Amortization.principal_for_month M
          (Amortization.interest_for_month (Amortization.iterBalance M rate p i) rate))).map
          round2 := by
      rw [Amortization.scheduleRows_eq_map, List.map_map, List.map_map]
      rfl
    rw [hmap]
    have h1 := Amortization.sum_round2_bound ((List.range n).map
      (fun i => Amortization.principal_for_month M
        (Amortization.interest_for_month (Amortization.iterBalance M rate p i) rate)))
    rw [Amortization.sum_principal_unrounded, hfin, List.length_map, List.length_range] at h1
    simpa using h1

/-- Witness for C3 at principal 300, rate 0, 3 months. -/
theorem schedule_retires_loan_witness :
    ∃ entries,
      Amortization.generate_amortization_schedule 300 0 3 = .ok entries ∧
      entries.length = 3 ∧
      (∀ e, entries.get? (3 - 1) = some e → e.balance = 0) ∧
      |(entries.map Amortization.ScheduleEntry.principal).sum - 300| ≤ ((3 : ℕ) : ℚ) * (1 / 200) :=
  schedule_retires_loan 300 0 3 (by norm_num) (by norm_num) (by norm_num)

/-- C8 counterexample: with `principal = 100 > 0`, rate `0` and
`termYears = 1/30 > 0` the derived month count is 0, so
`calculate_monthly_payment` raises `ValueError` and no payment equal to
`principal / months` exists. -/
theorem zero_rate_payment_cex :
    pyRound ((1 / 30 : ℚ) * 12) = 0 ∧
    LoanCalculations.calculate_monthly_payment 100 0 (1 / 30) = .error .valueError := by
  have h0 : pyRound ((1 / 30 : ℚ) * 12) = 0 := by
    norm_num [pyRound, round_eq, Int.floor_eq_iff]
  refine ⟨h0, ?_⟩
  simp only [LoanCalculations.calculate_monthly_payment,
    LoanCalculations.validate_nums_ok 100 0 (1 / 30) (by norm_num) (le_refl 0) (by norm_num),
    h0]
  simp

/-- C8 (amended with the derived `months ≥ 1`, which the code enforces):
with a zero annual rate, the monthly payment is exactly
`principal / months`, and every entry of any schedule generated at rate 0
has interest exactly 0. -/
theorem zero_rate_payment_and_interest (p y : ℚ) (hp : 0 < p) (hy : 0 < y)
    (hm : 1 ≤ pyRound (y * 12)) :
    LoanCalculations.calculate_monthly_payment p 0 y = .ok (p / (pyRound (y * 12) : ℚ)) ∧
    ∀ (m : ℕ) (entries : List Amortization.ScheduleEntry),
      Amortization.generate_amortization_schedule p 0 m = .ok entries →
      ∀ e ∈ entries, e.interest = 0 := by
  constructor
  · exact LoanCalculations.calc_mp_zero p 0 y hp le_rfl hy hm (by norm_num)
  · intro m entries hE e he
    cases hmp : Amortization.monthly_payment p 0 m with
    | error err =>
      rw [Amortization.generate_amortization_schedule, hmp] at hE
      exact absurd hE (by simp)
    | ok M =>
      rw [Amortization.generate_ok p 0 m M hmp] at hE
      injection hE with hE
      subst hE
      rw [Amortization.scheduleRows_eq_map] at he
      simp only [List.mem_map] at he
      obtain ⟨i, _, rfl⟩ := he
      show round2 (Amortization.interest_for_month (Amortization.iterBalance M 0 p i) 0) = 0
      simp [Amortization.interest_for_month, round2_zero]

/-- Witness for the amended C8 at principal 100, term 1 year. -/
theorem zero_rate_payment_and_interest_witness :
    LoanCalculations.calculate_monthly_payment 100 0 1 =
      .ok (100 / (pyRound ((1 : ℚ) * 12) : ℚ)) ∧
    ∀ (m : ℕ) (entries : List Amortization.ScheduleEntry),
      Amortization.generate_amortization_schedule 100 0 m = .ok entries →
      ∀ e ∈ entries, e.interest = 0 :=
  zero_rate_payment_and_interest 100 1 (by norm_num) (by norm_num)
    (by norm_num [pyRound, round_eq, Int.floor_eq_iff])

namespace LoanCalculations

/-- The payment formula of `loan_calculations.py`
(`P·r / (1 − (1+r)^(−n))`) and the one of `amorization.py`
(`P·r·(1+r)^n / ((1+r)^n − 1)`) agree for a positive monthly rate. -/
lemma payment_forms_agree (p mr : ℚ) (hmr : 0 < mr) (n : ℕ) (hn : n ≠ 0) :
    p * mr / (1 - (1 + mr) ^ (-(n : ℤ))) = p * (mr * (1 + mr) ^ n) / ((1 + mr) ^ n - 1) := by
  have hA : 1 < (1 + mr) ^ n := one_lt_pow₀ (by linarith) hn
  have hA0 : (1 + mr) ^ n ≠ 0 := by positivity
  have h1 : (1 + mr) ^ n - 1 ≠ 0 := sub_ne_zero.mpr (ne_of_gt hA)
  have h2 : 1 - ((1 + mr) ^ n)⁻¹ ≠ 0 := by
    have : ((1 + mr) ^ n)⁻¹ < 1 := by
      rw [inv_lt_one_iff₀]
      right
      exact hA
    linarith
  rw [zpow_neg, zpow_natCast]
  field_simp
  ring

/-- `calculate_remaining_balance` on a payment count at or beyond the
term: the fully-paid branch returns 0. -/
lemma calc_rb_full (p r y : ℚ) (hp : 0 < p) (hr : 0 ≤ r) (hy : 0 < y)
    (k : ℤ) (hk0 : 0 ≤ k) (hkn : pyRound (y * 12) ≤ k) (hm : 1 ≤ pyRound (y * 12)) :
    calculate_remaining_balance p r y (.intVal k) = .ok 0 := by
  simp only [calculate_remaining_balance, validate_nums_ok p r y hp hr hy]
  rw [if_neg (by omega), if_neg (by omega), if_pos hkn]

/-- `calculate_remaining_balance` before the end of the term, zero-rate
branch: linear reduction. -/
lemma calc_rb_zero_rate (p r y : ℚ) (hp : 0 < p) (hr : 0 ≤ r) (hy : 0 < y)
    (k : ℤ) (hk0 : 0 ≤ k) (hkn : k < pyRound (y * 12)) (hm : 1 ≤ pyRound (y * 12))
    (hmr : r / 100 / 12 = 0) :
    calculate_remaining_balance p r y (.intVal k) =
      .ok (max (p - p / (pyRound (y * 12) : ℚ) * (k : ℚ)) 0) := by
  simp only [calculate_remaining_balance, validate_nums_ok p r y hp hr hy,
    calc_mp_zero p r y hp hr hy hm hmr]
  rw [if_neg (by omega), if_neg (by omega), if_neg (by omega), if_pos hmr]

/-- `calculate_remaining_balance` before the end of the term,
positive-rate branch: the closed-form balance, clamped at zero. -/
lemma calc_rb_pos_rate (p r y : ℚ) (hp : 0 < p) (hr : 0 ≤ r) (hy : 0 < y)
    (k : ℤ) (hk0 : 0 ≤ k) (hkn : k < pyRound (y * 12)) (hm : 1 ≤ pyRound (y * 12))
    (hmr : r / 100 / 12 ≠ 0) :
    calculate_remaining_balance p r y (.intVal k) =
      .ok (max (p * (1 + r / 100 / 12) ^ k -
        p * (r / 100 / 12) / (1 - (1 + r / 100 / 12) ^ (-(pyRound (y * 12)))) *
          ((1 + r / 100 / 12) ^ k - 1) / (r / 100 / 12)) 0) := by
  simp only [calculate_remaining_balance, validate_nums_ok p r y hp hr hy,
    calc_mp_pos p r y hp hr hy hm hmr]
  rw [if_neg (by omega), if_neg (by omega), if_neg (by omega), if_neg hmr]
  simp only [pyDiv, hmr, ite_false, if_neg hmr]

end LoanCalculations

/-- C2: for a positive rate and every `k` in `[1, months]`, the
closed-form `calculate_remaining_balance` equals the unrounded balance
obtained by iterating the per-period recurrence `k` times, and therefore
matches schedule entry `k`'s ending balance within the 2-decimal output
rounding (half a cent). -/
theorem remaining_balance_matches_schedule (p rate y : ℚ) (n k : ℕ)
    (hp : 0 < p) (hr : 0 < rate) (hy : 0 < y)
    (hn : pyRound (y * 12) = (n : ℤ)) (hn1 : 1 ≤ n) (hk1 : 1 ≤ k) (hkn : k ≤ n) :
    ∃ (M v : ℚ) (entries : List Amortization.ScheduleEntry),
      Amortization.monthly_payment p (rate / 100) n = .ok M ∧
      Amortization.generate_amortization_schedule p (rate / 100) n = .ok entries ∧
      LoanCalculations.calculate_remaining_balance p rate y (.intVal (k : ℤ)) = .ok v ∧
      v = Amortization.iterBalance M (rate / 100) p k ∧
      ∃ e, entries.get? (k - 1) = some e ∧ |v - e.balance| ≤ 1 / 200 := by
  have hmr : 0 < rate / 100 / 12 := by positivity
  have hn0 : n ≠ 0 := by omega
  have h1 : (1 : ℚ) < 1 + rate / 100 / 12 := by linarith
  have hA : 1 < (1 + rate / 100 / 12) ^ n := one_lt_pow₀ h1 hn0
  have hM : Amortization.monthly_payment p (rate / 100) n =
      .ok (p * (rate / 100 / 12 * (1 + rate / 100 / 12) ^ n) /
        ((1 + rate / 100 / 12) ^ n - 1)) :=
    Amortization.amort_mp_pos p (rate / 100) n hmr hn0
  set M := p * (rate / 100 / 12 * (1 + rate / 100 / 12) ^ n) /
    ((1 + rate / 100 / 12) ^ n - 1) with hMdef
  have hfin : Amortization.iterBalance M (rate / 100) p n = 0 := by
    rw [hMdef]
    exact Amortization.iterBalance_annuity_final p (rate / 100) n hmr.ne' (ne_of_gt hA)
  have hnonneg : ∀ j, j ≤ n → 0 ≤ Amortization.iterBalance M (rate / 100) p j := by
    intro j hj
    rw [hMdef]
    exact Amortization.iterBalance_annuity_nonneg p (rate / 100) n hp.le hmr hn0 j hj
  have hgen := Amortization.generate_ok p (rate / 100) n M hM
  have hget : (Amortization.scheduleRows M (rate / 100) p 1 n).get? (k - 1) =
      some { month := 1 + (k - 1), payment := round2 M,
             interest := round2 (Amortization.interest_for_month
               (Amortization.iterBalance M (rate / 100) p (k - 1)) (rate / 100)),
             principal := round2 (Amortization.principal_for_month M
               (Amortization.interest_for_month
                 (Amortization.iterBalance M (rate / 100) p (k - 1)) (rate / 100))),
             balance := round2 (max
               (Amortization.iterBalance M (rate / 100) p (k - 1 + 1)) 0) } := by
    rw [Amortization.scheduleRows_eq_map, List.get?_map,
      List.get?_range (show k - 1 < n by omega)]
    rfl
  rw [show k - 1 + 1 = k from by omega] at hget
  rcases eq_or_lt_of_le hkn with heq | hlt
  · -- k = n: the fully-paid branch returns 0, and the final balance is 0.
    have hrb : LoanCalculations.calculate_remaining_balance p rate y (.intVal (k : ℤ)) =
        .ok 0 :=
      LoanCalculations.calc_rb_full p rate y hp hr.le hy (k : ℤ) (by omega)
        (by rw [hn]; omega) (by rw [hn]; omega)
    refine ⟨M, 0, _, hM, hgen, hrb, ?_, ?_⟩
    · rw [heq, hfin]
    · refine ⟨_, hget, ?_⟩
      show |0 - round2 (max (Amortization.iterBalance M (rate / 100) p k) 0)| ≤ 1 / 200
      rw [heq, hfin]
      simp [round2_zero]
  · -- k < n: the closed-form branch, with the clamp a no-op.
    have hrb := LoanCalculations.calc_rb_pos_rate p rate y hp hr.le hy (k : ℤ) (by omega)
      (by rw [hn]; omega) (by rw [hn]; omega) hmr.ne'
    rw [hn] at hrb
    have hagree : p * (rate / 100 / 12) / (1 - (1 + rate / 100 / 12) ^ (-(n : ℤ))) = M := by
      rw [hMdef]
      exact LoanCalculations.payment_forms_agree p _ hmr n hn0
    rw [hagree, zpow_natCast] at hrb
    have hiter : Amortization.iterBalance M (rate / 100) p k =
        p * (1 + rate / 100 / 12) ^ k - M * ((1 + rate / 100 / 12) ^ k - 1) /
          (rate / 100 / 12) :=
      Amortization.iterBalance_closed M (rate / 100) p hmr.ne' k
    have hval : max (p * (1 + rate / 100 / 12) ^ k -
        M * ((1 + rate / 100 / 12) ^ k - 1) / (rate / 100 / 12)) 0 =
        Amortization.iterBalance M (rate / 100) p k := by
      rw [← hiter]
      exact max_eq_left (hnonneg k (le_of_lt hlt))
    refine ⟨M, _, _, hM, hgen, hrb, hval, ?_⟩
    refine ⟨_, hget, ?_⟩
    show |max (p * (1 + rate / 100 / 12) ^ k -
        M * ((1 + rate / 100 / 12) ^ k - 1) / (rate / 100 / 12)) 0 -
      round2 (max (Amortization.iterBalance M (rate / 100) p k) 0)| ≤ 1 / 200
    rw [hval, max_eq_left (hnonneg k (le_of_lt hlt)), abs_sub_comm]
    exact abs_round2_sub _

/-- Witness for C2 at principal 1200, rate 120%, term 1/6 year
(2 months), k = 1. -/
theorem remaining_balance_matches_schedule_witness :
    ∃ (M v : ℚ) (entries : List Amortization.ScheduleEntry),
      Amortization.monthly_payment 1200 (120 / 100) 2 = .ok M ∧
      Amortization.generate_amortization_schedule 1200 (120 / 100) 2 = .ok entries ∧
      LoanCalculations.calculate_remaining_balance 1200 120 (1 / 6)
        (.intVal ((1 : ℕ) : ℤ)) = .ok v ∧
      v = Amortization.iterBalance M (120 / 100) 1200 1 ∧
      ∃ e, entries.get? (1 - 1) = some e ∧ |v - e.balance| ≤ 1 / 200 :=
  remaining_balance_matches_schedule 1200 120 (1 / 6) 2 1 (by norm_num) (by norm_num)
    (by norm_num) (by norm_num [pyRound, round_eq, Int.floor_eq_iff]) (by norm_num)
    (by norm_num) (by norm_num)

namespace LoanCalculations

/-- On valid inputs the payment computation of `loan_calculations.py`
succeeds. -/
lemma calc_mp_exists (p r y : ℚ) (hp : 0 < p) (hr : 0 ≤ r) (hy : 0 < y)
    (hm : 1 ≤ pyRound (y * 12)) :
    ∃ mp, calculate_monthly_payment p r y = .ok mp := by
  by_cases hmr : r / 100 / 12 = 0
  · exact ⟨_, calc_mp_zero p r y hp hr hy hm hmr⟩
  · exact ⟨_, calc_mp_pos p r y hp hr hy hm hmr⟩

end LoanCalculations

/-- C6: `calculate_remaining_balance` never returns a negative value, and
on valid inputs with an integer payment count at or beyond the term it
returns exactly 0. -/
theorem remaining_balance_nonneg_and_retired :
    (∀ (p r y : ℚ) (k : ℤ), 0 < p → 0 ≤ r → 0 < y → 1 ≤ pyRound (y * 12) → 0 ≤ k →
      ∃ v, LoanCalculations.calculate_remaining_balance p r y (.intVal k) = .ok v ∧
        0 ≤ v) ∧
    (∀ (p r y : ℚ) (k : ℤ), 0 < p → 0 ≤ r → 0 < y → 1 ≤ pyRound (y * 12) →
      pyRound (y * 12) ≤ k →
      LoanCalculations.calculate_remaining_balance p r y (.intVal k) = .ok 0) := by
  constructor
  · intro p r y k hp hr hy hm hk0
    rcases le_or_lt (pyRound (y * 12)) k with hk | hk
    · exact ⟨0, LoanCalculations.calc_rb_full p r y hp hr hy k hk0 hk hm, le_refl 0⟩
    · by_cases hmr : r / 100 / 12 = 0
      · exact ⟨_, LoanCalculations.calc_rb_zero_rate p r y hp hr hy k hk0 hk hm hmr,
          le_max_right _ 0⟩
      · exact ⟨_, LoanCalculations.calc_rb_pos_rate p r y hp hr hy k hk0 hk hm hmr,
          le_max_right _ 0⟩
  · intro p r y k hp hr hy hm hk
    exact LoanCalculations.calc_rb_full p r y hp hr hy k (by omega) hk hm

/-- Witness for C6 (second conjunct) at principal 120, rate 0, one year,
12 payments made. -/
theorem remaining_balance_nonneg_and_retired_witness :
    LoanCalculations.calculate_remaining_balance 120 0 1 (.intVal 12) = .ok 0 :=
  remaining_balance_nonneg_and_retired.2 120 0 1 12 (by norm_num) (by norm_num) (by norm_num)
    (by norm_num [pyRound, round_eq, Int.floor_eq_iff])
    (by norm_num [pyRound, round_eq, Int.floor_eq_iff])

/-- C7: `calculate_total_interest` returns
`monthlyPayment × months − principal` and `calculate_total_cost` returns
`principal + totalInterest`, for every valid input. -/
theorem total_interest_and_cost (p r y : ℚ) (hp : 0 < p) (hr : 0 ≤ r) (hy : 0 < y)
    (hm : 1 ≤ pyRound (y * 12)) :
    ∃ mp, LoanCalculations.calculate_monthly_payment p r y = .ok mp ∧
      LoanCalculations.calculate_total_interest p r y =
        .ok (mp * (pyRound (y * 12) : ℚ) - p) ∧
      LoanCalculations.calculate_total_cost p r y =
        .ok (p + (mp * (pyRound (y * 12) : ℚ) - p)) := by
  obtain ⟨mp, hmp⟩ := LoanCalculations.calc_mp_exists p r y hp hr hy hm
  have hti : LoanCalculations.calculate_total_interest p r y =
      .ok (mp * (pyRound (y * 12) : ℚ) - p) := by
    simp only [LoanCalculations.calculate_total_interest,
      LoanCalculations.validate_nums_ok p r y hp hr hy, hmp]
  refine ⟨mp, hmp, hti, ?_⟩
  simp only [LoanCalculations.calculate_total_cost,
    LoanCalculations.validate_nums_ok p r y hp hr hy, hti]

/-- Witness for C7 at principal 1200, rate 0, one year. -/
theorem total_interest_and_cost_witness :
    ∃ mp, LoanCalculations.calculate_monthly_payment 1200 0 1 = .ok mp ∧
      LoanCalculations.calculate_total_interest 1200 0 1 =
        .ok (mp * (pyRound ((1 : ℚ) * 12) : ℚ) - 1200) ∧
      LoanCalculations.calculate_total_cost 1200 0 1 =
        .ok (1200 + (mp * (pyRound ((1 : ℚ) * 12) : ℚ) - 1200)) :=
  total_interest_and_cost 1200 0 1 (by norm_num) (by norm_num) (by norm_num)
    (by norm_num [pyRound, round_eq, Int.floor_eq_iff])

namespace LoanCalculations

/-- Exact failure conditions of `validate_loan_inputs` on numeric
arguments. -/
lemma validate_nums_err_iff (p r y : ℚ) :
    (∃ e, validate_loan_inputs (.floatVal p) (.floatVal r) (.floatVal y) = .error e) ↔
      (p ≤ 0 ∨ r < 0 ∨ y ≤ 0) := by
  unfold validate_loan_inputs
  rw [if_neg (show ¬¬((PyVal.floatVal p).isNumber ∧ (PyVal.floatVal r).isNumber ∧
    (PyVal.floatVal y).isNumber : Prop) by simp [PyVal.isNumber])]
  split_ifs with h2 h3 h4
  · exact iff_of_true ⟨_, rfl⟩ (Or.inl h2)
  · exact iff_of_true ⟨_, rfl⟩ (Or.inr (Or.inl h3))
  · exact iff_of_true ⟨_, rfl⟩ (Or.inr (Or.inr h4))
  · apply iff_of_false
    · rintro ⟨e, he⟩
      simp at he
    · rintro (h | h | h)
      · exact h2 h
      · exact h3 h
      · exact h4 h

lemma validate_cases (a b c : PyVal) :
    validate_loan_inputs a b c = .ok () ∨ ∃ e, validate_loan_inputs a b c = .error e := by
  cases h : validate_loan_inputs a b c with
  | error e => exact Or.inr ⟨e, rfl⟩
  | ok u => cases u; exact Or.inl rfl

lemma calc_mp_err_of_validate (p r y : ℚ) (e : PyError)
    (hv : validate_loan_inputs (.floatVal p) (.floatVal r) (.floatVal y) = .error e) :
    calculate_monthly_payment p r y = .error e := by
  simp only [calculate_monthly_payment, hv]

lemma calc_mp_err_months (p r y : ℚ)
    (hok : validate_loan_inputs (.floatVal p) (.floatVal r) (.floatVal y) = .ok ())
    (hm : pyRound (y * 12) ≤ 0) :
    calculate_monthly_payment p r y = .error .valueError := by
  simp only [calculate_monthly_payment, hok, if_pos hm]

lemma calc_rb_err_of_validate (p r y : ℚ) (pm : PyVal) (e : PyError)
    (hv : validate_loan_inputs (.floatVal p) (.floatVal r) (.floatVal y) = .error e) :
    calculate_remaining_balance p r y pm = .error e := by
  simp only [calculate_remaining_balance, hv]

lemma calc_rb_err_months (p r y : ℚ) (pm : PyVal)
    (hok : validate_loan_inputs (.floatVal p) (.floatVal r) (.floatVal y) = .ok ())
    (hm : pyRound (y * 12) ≤ 0) :
    ∃ e, calculate_remaining_balance p r y pm = .error e := by
  cases pm with
  | intVal k =>
    by_cases hk : k < 0
    · exact ⟨.valueError, by simp only [calculate_remaining_balance, hok, if_pos hk]⟩
    · exact ⟨.valueError,
        by simp only [calculate_remaining_balance, hok, if_neg hk, if_pos hm]⟩
  | floatVal q => exact ⟨.typeError, by simp only [calculate_remaining_balance, hok]⟩
  | nonNum => exact ⟨.typeError, by simp only [calculate_remaining_balance, hok]⟩

lemma calc_rb_err_neg (p r y : ℚ) (k : ℤ) (hk : k < 0)
    (hok : validate_loan_inputs (.floatVal p) (.floatVal r) (.floatVal y) = .ok ()) :
    calculate_remaining_balance p r y (.intVal k) = .error .valueError := by
  simp only [calculate_remaining_balance, hok, if_pos hk]

lemma calc_rb_err_nonint (p r y : ℚ) (pm : PyVal) (hpm : ∀ k : ℤ, pm ≠ .intVal k)
    (hok : validate_loan_inputs (.floatVal p) (.floatVal r) (.floatVal y) = .ok ()) :
    calculate_remaining_balance p r y pm = .error .typeError := by
  cases pm with
  | intVal k => exact absurd rfl (hpm k)
  | floatVal q => simp only [calculate_remaining_balance, hok]
  | nonNum => simp only [calculate_remaining_balance, hok]

end LoanCalculations

/-- C9: validation fails (with a `TypeError` or `ValueError`, the spec's
`InvalidInput`) exactly when an argument is non-numeric, `principal ≤ 0`,
`annualRatePercent < 0`, `termYears ≤ 0`, or — in the payment-computing
operations — the derived `months = round(termYears × 12) ≤ 0`; and
`calculate_remaining_balance` additionally fails exactly when
`paymentsMade` is not a non-negative integer. An `Except.error` result
carries no value, so no result is produced on failure. -/
theorem validation_characterization :
    (∀ a b c : PyVal,
      (∃ e, LoanCalculations.validate_loan_inputs a b c = .error e) ↔
        (a.isNumber = false ∨ b.isNumber = false ∨ c.isNumber = false ∨
          a.toQ ≤ 0 ∨ b.toQ < 0 ∨ c.toQ ≤ 0)) ∧
    (∀ p r y : ℚ,
      (∃ e, LoanCalculations.calculate_monthly_payment p r y = .error e) ↔
        (p ≤ 0 ∨ r < 0 ∨ y ≤ 0 ∨ pyRound (y * 12) ≤ 0)) ∧
    (∀ (p r y : ℚ) (pm : PyVal),
      (∃ e, LoanCalculations.calculate_remaining_balance p r y pm = .error e) ↔
        (p ≤ 0 ∨ r < 0 ∨ y ≤ 0 ∨ pyRound (y * 12) ≤ 0 ∨
          ∀ k : ℤ, 0 ≤ k → pm ≠ .intVal k)) := by
  refine ⟨?_, ?_, ?_⟩
  · intro a b c
    unfold LoanCalculations.validate_loan_inputs
    by_cases h1 : (a.isNumber ∧ b.isNumber ∧ c.isNumber : Prop)
    · rw [if_neg (not_not_intro h1)]
      obtain ⟨ha, hb, hc⟩ := h1
      split_ifs with h2 h3 h4
      · exact iff_of_true ⟨_, rfl⟩ (by tauto)
      · exact iff_of_true ⟨_, rfl⟩ (by tauto)
      · exact iff_of_true ⟨_, rfl⟩ (by tauto)
      · apply iff_of_false
        · rintro ⟨e, he⟩
          simp at he
        · rintro (h | h | h | h | h | h) <;> simp_all
    · rw [if_pos h1]
      refine iff_of_true ⟨_, rfl⟩ ?_
      rcases Bool.eq_false_or_eq_true a.isNumber with ha | ha
      · rcases Bool.eq_false_or_eq_true b.isNumber with hb | hb
        · rcases Bool.eq_false_or_eq_true c.isNumber with hc | hc
          · exact absurd ⟨ha, hb, hc⟩ h1
          · exact Or.inr (Or.inr (Or.inl hc))
        · exact Or.inr (Or.inl hb)
      · exact Or.inl ha
  · intro p r y
    constructor
    · rintro ⟨e, he⟩
      by_contra hcon
      push_neg at hcon
      obtain ⟨h1, h2, h3, h4⟩ := hcon
      obtain ⟨mp, hmp⟩ := LoanCalculations.calc_mp_exists p r y h1 h2 h3 (by omega)
      rw [hmp] at he
      simp at he
    · intro h
      rcases h with h | h | h | h
      · obtain ⟨e, hv⟩ := (LoanCalculations.validate_nums_err_iff p r y).mpr (Or.inl h)
        exact ⟨e, LoanCalculations.calc_mp_err_of_validate p r y e hv⟩
      · obtain ⟨e, hv⟩ :=
          (LoanCalculations.validate_nums_err_iff p r y).mpr (Or.inr (Or.inl h))
        exact ⟨e, LoanCalculations.calc_mp_err_of_validate p r y e hv⟩
      · obtain ⟨e, hv⟩ :=
          (LoanCalculations.validate_nums_err_iff p r y).mpr (Or.inr (Or.inr h))
        exact ⟨e, LoanCalculations.calc_mp_err_of_validate p r y e hv⟩
      · rcases LoanCalculations.validate_cases (.floatVal p) (.floatVal r) (.floatVal y)
          with hok | ⟨e, hv⟩
        · exact ⟨_, LoanCalculations.calc_mp_err_months p r y hok h⟩
        · exact ⟨e, LoanCalculations.calc_mp_err_of_validate p r y e hv⟩
  · intro p r y pm
    constructor
    · rintro ⟨e, he⟩
      by_contra hcon
      push_neg at hcon
      obtain ⟨h1, h2, h3, h4, h5⟩ := hcon
      obtain ⟨k, hk0, rfl⟩ := h5
      rcases le_or_lt (pyRound (y * 12)) k with hk | hk
      · rw [LoanCalculations.calc_rb_full p r y h1 h2 h3 k hk0 hk (by omega)] at he
        simp at he
      · by_cases hmr : r / 100 / 12 = 0
        · rw [LoanCalculations.calc_rb_zero_rate p r y h1 h2 h3 k hk0 hk (by omega) hmr]
            at he
          simp at he
        · rw [LoanCalculations.calc_rb_pos_rate p r y h1 h2 h3 k hk0 hk (by omega) hmr]
            at he
          simp at he
    · intro h
      rcases h with h | h | h | h | h
      · obtain ⟨e, hv⟩ := (LoanCalculations.validate_nums_err_iff p r y).mpr (Or.inl h)
        exact ⟨e, LoanCalculations.calc_rb_err_of_validate p r y pm e hv⟩
      · obtain ⟨e, hv⟩ :=
          (LoanCalculations.validate_nums_err_iff p r y).mpr (Or.inr (Or.inl h))
        exact ⟨e, LoanCalculations.calc_rb_err_of_validate p r y pm e hv⟩
      · obtain ⟨e, hv⟩ :=
          (LoanCalculations.validate_nums_err_iff p r y).mpr (Or.inr (Or.inr h))
        exact ⟨e, LoanCalculations.calc_rb_err_of_validate p r y pm e hv⟩
      · rcases LoanCalculations.validate_cases (.floatVal p) (.floatVal r) (.floatVal y)
          with hok | ⟨e, hv⟩
        · exact LoanCalculations.calc_rb_err_months p r y pm hok h
        · exact ⟨e, LoanCalculations.calc_rb_err_of_validate p r y pm e hv⟩
      · rcases LoanCalculations.validate_cases (.floatVal p) (.floatVal r) (.floatVal y)
          with hok | ⟨e, hv⟩
        · cases pm with
          | intVal k =>
            have hkneg : k < 0 := by
              by_contra hknn
              push_neg at hknn
              exact h k hknn rfl
            exact ⟨.valueError, LoanCalculations.calc_rb_err_neg p r y k hkneg hok⟩
          | floatVal q =>
            exact ⟨.typeError,
              LoanCalculations.calc_rb_err_nonint p r y _ (by intro k hk; cases hk) hok⟩
          | nonNum =>
            exact ⟨.typeError,
              LoanCalculations.calc_rb_err_nonint p r y _ (by intro k hk; cases hk) hok⟩
        · exact ⟨e, LoanCalculations.calc_rb_err_of_validate p r y pm e hv⟩

/-- Witness for C9: a non-positive principal is rejected. -/
theorem validation_characterization_witness :
    ∃ e, LoanCalculations.calculate_monthly_payment (-1) 0 1 = .error e :=
  (validation_characterization.2.1 (-1) 0 1).mpr (Or.inl (by norm_num))
